import Mathlib

/-!
Shallow embedding of the adapter usage aggregator in `src/gpu.rs`, together
with proofs of its specified properties.  The operating system (DXGI) is
modelled as an explicit environment record supplying the result of every OS
call the function makes; the function itself is translated line by line.
Line numbers in the comments refer to `src/gpu.rs`.
-/

/-- Model of a Rust `f64` value as it can occur in this program.  The program
only adds usage samples (all of them the literal `0.0`), divides a sum by a
list length, and compares; the reachable values are therefore rationals plus
NaN (which IEEE 754 produces from `0.0 / 0.0`).  Infinities are omitted: they
would need a nonzero dividend over a zero divisor, and every dividend in the
program is a sum of `0.0` placeholder samples. -/
inductive F64 where
  | num : ℚ → F64
  | nan : F64
deriving DecidableEq

/-- IEEE addition restricted to the values above: NaN propagates. -/
def F64.add : F64 → F64 → F64
  | .num a, .num b => .num (a + b)
  | _, _ => .nan

/-- IEEE division restricted to the values above: NaN propagates, and a zero
divisor yields NaN (whenever the program divides by zero the dividend is also
zero, so this is the IEEE `0.0 / 0.0 = NaN` case). -/
def F64.div : F64 → F64 → F64
  | .num a, .num b => if b = 0 then .nan else .num (a / b)
  | _, _ => .nan

/-- Whether the value is an ordinary number (not NaN); `partial_cmp` on two
`f64` values returns `Some` exactly when both arguments satisfy this. -/
def F64.isNum : F64 → Bool
  | .num _ => true
  | .nan => false

/-- The rational value of a number, and 0 for NaN (only ever used under an
`isNum` guard). -/
def F64.toRat : F64 → ℚ
  | .num a => a
  | .nan => 0

/-- Rust `vals.iter().sum::<f64>()`: fold addition starting from `0.0`. -/
def f64sum (l : List F64) : F64 := l.foldl F64.add (F64.num 0)

/-- The `LUID` structure of the Windows API: a locally unique identifier with
an unsigned 32-bit `LowPart` and a signed 32-bit `HighPart`. -/
structure LUID where
  LowPart : Nat
  HighPart : Int
deriving DecidableEq

/-- The part of `DXGI_ADAPTER_DESC` the program reads: only `AdapterLuid` is
used (the description text, vendor ids and memory sizes are ignored). -/
structure DXGI_ADAPTER_DESC where
  AdapterLuid : LUID
deriving DecidableEq

/-- Rust formatting with `{:08x}`: lowercase hexadecimal, zero-padded on the
left to width 8.  The argument is reduced modulo `2 ^ 32` first, which is the
32-bit pattern Rust `LowerHex` prints for `i32` and `u32`. -/
def hex8 (n : Nat) : String :=
  let ds := Nat.toDigits 16 (n % 2 ^ 32)
  ⟨List.replicate (8 - ds.length) '0' ++ ds⟩

/-- The 32-bit twos-complement bit pattern of an `i32` value, as a natural
number. -/
def i32bits (i : Int) : Nat := (i % (2 : Int) ^ 32).toNat

/-- Line 24: format the adapter LUID as the 16-hex-digit grouping key,
`HighPart` first and then `LowPart`, each zero-padded to 8 digits. -/
def luidKey (desc : DXGI_ADAPTER_DESC) : String :=
  hex8 (i32bits desc.AdapterLuid.HighPart) ++ hex8 desc.AdapterLuid.LowPart

instance {ε α : Type} [DecidableEq ε] [DecidableEq α] :
    DecidableEq (Except ε α) := fun a b => by
  cases a <;> cases b
  · rename_i e f
    exact if h : e = f then .isTrue (by rw [h]) else .isFalse (by simp [h])
  · exact .isFalse fun q => Except.noConfusion q
  · exact .isFalse fun q => Except.noConfusion q
  · rename_i x y
    exact if h : x = y then .isTrue (by rw [h]) else .isFalse (by simp [h])

/-- One enumerated adapter entry as the program sees it: the only call made on
it is `GetDesc`, which either fills a description record or fails. -/
structure Adapter where
  GetDesc : Except Unit DXGI_ADAPTER_DESC
deriving DecidableEq

/-- The ambient OS state read by `get_gpu_usage`: the result of
`CreateDXGIFactory`, and for each index the result of
`factory.EnumAdapters(i)`.  An `Err` from `EnumAdapters` is how DXGI signals
the end of the enumeration (`DXGI_ERROR_NOT_FOUND`), and the `while let` at
line 16 treats every `Err` that way. -/
structure Env where
  CreateDXGIFactory : Except Unit Unit
  EnumAdapters : Nat → Except Unit Adapter

/-- The two error kinds, named by failure site as the spec does: the error
returned at line 10 (factory creation fails) is `EnumerationUnavailable`, the
error propagated at line 21 (`GetDesc` fails) is `DescriptionUnavailable`. -/
inductive GpuError where
  | enumerationUnavailable : GpuError
  | descriptionUnavailable : GpuError
deriving DecidableEq

/-- Observable result of one call of the function: a returned `Ok` list, a
returned `Err`, or a panic (from the `unwrap` in the sort comparator at
line 42). -/
inductive Outcome where
  | ok : List F64 → Outcome
  | err : GpuError → Outcome
  | panic : Outcome
deriving DecidableEq

/-- Line 30: `gpu_map.entry(luid).or_insert(Vec::new()).push(v)`, on an
association list standing in for the `HashMap`.  The iteration order of a
Rust `HashMap` is unspecified; insertion order is one admissible order, and
every property proved below is insensitive to the order because the list of
means is sorted before it is returned. -/
def pushSample (m : List (String × List F64)) (k : String) (v : F64) :
    List (String × List F64) :=
  match m with
  | [] => [(k, [v])]
  | (k2, vs) :: rest =>
    if k2 = k then (k2, vs ++ [v]) :: rest else (k2, vs) :: pushSample rest k v

/-- Line 28: the placeholder usage sample, always `0.0`. -/
def placeholder_usage : F64 := F64.num 0

/-- Lines 13 to 36: the enumeration loop.  The index starts at 0, and `fuel`
counts how many entries may still be processed before the
`adapter_index >= 10` break at line 33 fires, so the initial call has fuel
10.  An `Err` from `EnumAdapters` ends the loop normally; an `Err` from
`GetDesc` is propagated by the question-mark operator at line 21 and aborts
the whole call. -/
def gpuLoop (env : Env) : Nat → Nat → List (String × List F64) →
    Except GpuError (List (String × List F64))
  | _, 0, m => .ok m
  | i, fuel + 1, m =>
    match env.EnumAdapters i with
    | .error _ => .ok m
    | .ok adapter =>
      match adapter.GetDesc with
      | .error _ => .error .descriptionUnavailable
      | .ok desc =>
        gpuLoop env (i + 1) fuel (pushSample m (luidKey desc) placeholder_usage)

/-- The order the comparator at line 42 imposes on non-NaN values. -/
def f64le (a b : F64) : Prop := a.toRat ≤ b.toRat

instance : DecidableRel f64le :=
  fun a b => inferInstanceAs (Decidable (a.toRat ≤ b.toRat))

instance : IsTotal F64 f64le := ⟨fun a b => le_total a.toRat b.toRat⟩

instance : IsTrans F64 f64le := ⟨fun _ _ _ => le_trans⟩

/-- Line 42: `usages.sort_by(|a, b| a.partial_cmp(b).unwrap())`.  When every
element is an ordinary number the comparator is total and the slice is sorted
ascending (Rust slice sort is a stable comparison sort; with this comparator
any comparison sort returns the same list, produced here by insertion sort).
When the list has at least two elements and contains a NaN, at least one
comparison receives the NaN, `partial_cmp` returns `None` and the `unwrap`
panics, modelled as `none`.  A list of length at most one is never compared,
so it cannot panic even if it held a NaN. -/
def sortUsages (l : List F64) : Option (List F64) :=
  if l.length ≤ 1 then some l
  else if l.all F64.isNum then some (l.insertionSort f64le) else none

/-- Line 40: the arithmetic mean of one group, the sum of the samples divided
by their number cast to `f64`. -/
def groupMean (vals : List F64) : F64 :=
  F64.div (f64sum vals) (F64.num vals.length)

/-- Lines 7 to 46: the whole function `get_gpu_usage`. -/
def get_gpu_usage (env : Env) : Outcome :=
  match env.CreateDXGIFactory with
  | .error _ => .err .enumerationUnavailable
  | .ok _ =>
    match gpuLoop env 0 10 [] with
    | .error e => .err e
    | .ok gpu_map =>
      match sortUsages (gpu_map.map fun kv => groupMean kv.2) with
      | some sorted => .ok sorted
      | none => .panic

/-- The description records of the entries one run of the loop visits,
starting at index `i` with the given fuel: `none` when some visited entry has
a failing `GetDesc` (the run aborts there), otherwise `some` list of the
descriptions in visit order.  This is the observation history of a run, used
to state properties; it is not part of the program. -/
def visitedFrom (env : Env) : Nat → Nat → Option (List DXGI_ADAPTER_DESC)
  | _, 0 => some []
  | i, fuel + 1 =>
    match env.EnumAdapters i with
    | .error _ => some []
    | .ok adapter =>
      match adapter.GetDesc with
      | .error _ => none
      | .ok desc => (visitedFrom env (i + 1) fuel).map (desc :: ·)

/-- Effect of one `pushSample` on the key list: an existing key is kept in
place, a new key is appended at the end. -/
def insKey (ks : List String) (k : String) : List String :=
  if k ∈ ks then ks else ks ++ [k]

/-- Every sample list stored in the grouping map is nonempty and holds only
the placeholder sample. -/
def GoodMap (m : List (String × List F64)) : Prop :=
  ∀ kv ∈ m, kv.2 ≠ [] ∧ ∀ x ∈ kv.2, x = placeholder_usage

/-- Running the loop is the same as folding `pushSample` over the visited
descriptions, aborting with `DescriptionUnavailable` exactly when some
visited entry has a failing `GetDesc`. -/
theorem gpuLoop_eq (env : Env) (fuel : Nat) :
    ∀ i m, gpuLoop env i fuel m =
      match visitedFrom env i fuel with
      | none => .error .descriptionUnavailable
      | some ds =>
          .ok (ds.foldl (fun acc d => pushSample acc (luidKey d) placeholder_usage) m) := by
  induction fuel with
  | zero => intro i m; rfl
  | succ fuel ih =>
    intro i m
    cases h1 : env.EnumAdapters i with
    | error e =>
      simp [gpuLoop, visitedFrom, h1]
    | ok adapter =>
      cases h2 : adapter.GetDesc with
      | error e =>
        simp [gpuLoop, visitedFrom, h1, h2]
      | ok desc =>
        simp only [gpuLoop, visitedFrom, h1, h2]
        rw [ih]
        cases visitedFrom env (i + 1) fuel with
        | none => simp
        | some ds => simp

theorem pushSample_map_fst (m : List (String × List F64)) (k : String) (v : F64) :
    (pushSample m k v).map Prod.fst = insKey (m.map Prod.fst) k := by
  induction m with
  | nil => simp [pushSample, insKey]
  | cons kv rest ih =>
    obtain ⟨k2, vs⟩ := kv
    by_cases h : k2 = k
    · subst h
      simp [pushSample, insKey]
    · have h2 : ¬ k = k2 := fun e => h e.symm
      simp only [pushSample, if_neg h, List.map_cons, ih, insKey, List.mem_cons]
      by_cases hk : k ∈ rest.map Prod.fst
      · simp [hk, h2]
      · simp [hk, h2]

theorem foldl_push_map_fst (ds : List DXGI_ADAPTER_DESC) :
    ∀ m : List (String × List F64),
      ((ds.foldl (fun acc d => pushSample acc (luidKey d) placeholder_usage) m).map Prod.fst)
        = ds.foldl (fun ks d => insKey ks (luidKey d)) (m.map Prod.fst) := by
  induction ds with
  | nil => intro m; rfl
  | cons d ds ih =>
    intro m
    simp only [List.foldl_cons]
    rw [ih, pushSample_map_fst]

theorem insKey_nodup (ks : List String) (k : String) (h : ks.Nodup) :
    (insKey ks k).Nodup := by
  unfold insKey
  split_ifs with hm
  · exact h
  · simp [List.nodup_append, h, List.disjoint_singleton, hm]

theorem foldl_insKey_nodup (ds : List DXGI_ADAPTER_DESC) :
    ∀ ks : List String, ks.Nodup →
      (ds.foldl (fun a d => insKey a (luidKey d)) ks).Nodup := by
  induction ds with
  | nil => exact fun ks h => h
  | cons d ds ih =>
    intro ks h
    exact ih _ (insKey_nodup _ _ h)

theorem insKey_toFinset (ks : List String) (k : String) :
    (insKey ks k).toFinset = insert k ks.toFinset := by
  unfold insKey
  split_ifs with hm
  · exact (Finset.insert_eq_self.mpr (List.mem_toFinset.mpr hm)).symm
  · ext a
    simp [or_comm]

theorem foldl_insKey_toFinset (ds : List DXGI_ADAPTER_DESC) :
    ∀ ks : List String,
      (ds.foldl (fun a d => insKey a (luidKey d)) ks).toFinset
        = ks.toFinset ∪ (ds.map luidKey).toFinset := by
  induction ds with
  | nil => intro ks; simp
  | cons d ds ih =>
    intro ks
    simp only [List.foldl_cons, List.map_cons, List.toFinset_cons]
    rw [ih, insKey_toFinset]
    ext a
    simp

theorem goodMap_push (k : String) :
    ∀ m : List (String × List F64), GoodMap m →
      GoodMap (pushSample m k placeholder_usage) := by
  intro m
  induction m with
  | nil =>
    intro _ kv hkv
    have hkv2 : kv = (k, [placeholder_usage]) := by
      simpa [pushSample] using hkv
    subst hkv2
    constructor
    · simp
    · intro x hx
      simpa using hx
  | cons hd rest ih =>
    intro h
    obtain ⟨k2, vs⟩ := hd
    have hhd := h (k2, vs) (by simp)
    have hrest : GoodMap rest := fun kv hkv => h kv (by simp [hkv])
    intro kv hkv
    simp only [pushSample] at hkv
    by_cases hk : k2 = k
    · rw [if_pos hk] at hkv
      rcases List.mem_cons.mp hkv with h1 | h1
      · subst h1
        constructor
        · simp
        · intro x hx
          rcases List.mem_append.mp hx with hx | hx
          · exact hhd.2 x hx
          · simpa using hx
      · exact hrest kv h1
    · rw [if_neg hk] at hkv
      rcases List.mem_cons.mp hkv with h1 | h1
      · subst h1
        exact hhd
      · exact ih hrest kv h1

theorem goodMap_fold (ds : List DXGI_ADAPTER_DESC) :
    ∀ m, GoodMap m →
      GoodMap (ds.foldl (fun acc d => pushSample acc (luidKey d) placeholder_usage) m) := by
  induction ds with
  | nil => exact fun m h => h
  | cons d ds ih =>
    intro m h
    exact ih _ (goodMap_push (luidKey d) m h)

theorem f64sum_placeholder (vals : List F64) (hall : ∀ x ∈ vals, x = placeholder_usage) :
    f64sum vals = F64.num 0 := by
  unfold f64sum
  have main : ∀ l : List F64, (∀ x ∈ l, x = placeholder_usage) →
      ∀ q : ℚ, l.foldl F64.add (F64.num q) = F64.num q := by
    intro l
    induction l with
    | nil => intro _ q; rfl
    | cons a t ih =>
      intro hl q
      have ha : a = placeholder_usage := hl a (List.mem_cons_self _ _)
      subst ha
      have ht : ∀ x ∈ t, x = placeholder_usage := fun x hx => hl x (List.mem_cons_of_mem _ hx)
      simp only [List.foldl_cons]
      have : F64.add (F64.num q) placeholder_usage = F64.num q := by
        simp [F64.add, placeholder_usage]
      rw [this, ih ht q]
  exact main vals hall 0

theorem groupMean_placeholder (vals : List F64) (hne : vals ≠ [])
    (hall : ∀ x ∈ vals, x = placeholder_usage) : groupMean vals = F64.num 0 := by
  unfold groupMean
  rw [f64sum_placeholder vals hall]
  have hlen : ((vals.length : ℚ)) ≠ 0 := by
    have h0 : 0 < vals.length := List.length_pos.mpr hne
    have h1 : vals.length ≠ 0 := Nat.pos_iff_ne_zero.mp h0
    exact_mod_cast h1
  simp [F64.div, hlen]

/-- Sorting a constant list of ordinary numbers succeeds and returns it
unchanged. -/
theorem sortUsages_replicate (n : Nat) (q : ℚ) :
    sortUsages (List.replicate n (F64.num q)) = some (List.replicate n (F64.num q)) := by
  unfold sortUsages
  split_ifs with h1 h2
  · rfl
  · congr 1
    have hp := List.perm_insertionSort f64le (List.replicate n (F64.num q))
    refine List.eq_replicate_iff.mpr ⟨?_, ?_⟩
    · rw [hp.length_eq, List.length_replicate]
    · intro b hb
      exact List.eq_of_mem_replicate (hp.mem_iff.mp hb)
  · exfalso
    apply h2
    rw [List.all_eq_true]
    intro x hx
    rw [List.eq_of_mem_replicate hx]
    rfl

/-- A successful sort preserves the length of the list. -/
theorem sortUsages_length (l s : List F64) (h : sortUsages l = some s) :
    s.length = l.length := by
  unfold sortUsages at h
  split_ifs at h with h1 h2
  · cases h
    rfl
  · cases h
    exact (List.perm_insertionSort f64le l).length_eq

/-- A successful sort returns a list of elements of the input. -/
theorem sortUsages_mem (l s : List F64) (h : sortUsages l = some s) :
    ∀ x ∈ s, x ∈ l := by
  unfold sortUsages at h
  split_ifs at h with h1 h2
  · cases h
    exact fun x hx => hx
  · cases h
    exact fun x hx => (List.perm_insertionSort f64le l).mem_iff.mp hx

/-- Every successfully sorted list is ascending: adjacent elements are related
by the comparator order. -/
theorem sortUsages_chain (l s : List F64) (h : sortUsages l = some s) :
    s.Chain' f64le := by
  unfold sortUsages at h
  split_ifs at h with h1 h2
  · cases h
    rcases l with _ | ⟨a, _ | ⟨b, t⟩⟩
    · exact List.chain'_nil
    · exact List.chain'_singleton a
    · exfalso
      simp at h1
  · cases h
    exact List.Pairwise.chain' (List.sorted_insertionSort f64le l)

/-- On every successful run the output is the list of group means.  All groups
hold only placeholder samples, so every mean is the number 0 and the output is
a constant list whose length is the number of distinct keys among the visited
descriptions. -/
theorem get_gpu_usage_ok_char (env : Env) (ds : List DXGI_ADAPTER_DESC)
    (hf : env.CreateDXGIFactory = .ok ())
    (hds : visitedFrom env 0 10 = some ds) :
    get_gpu_usage env
      = .ok (List.replicate ((ds.map luidKey).toFinset.card) (F64.num 0)) := by
  have hloop : gpuLoop env 0 10 []
      = .ok (ds.foldl (fun acc d => pushSample acc (luidKey d) placeholder_usage) []) := by
    rw [gpuLoop_eq env 10 0 [], hds]
  set m := ds.foldl (fun acc d => pushSample acc (luidKey d) placeholder_usage) [] with hm
  have hgood : GoodMap m :=
    goodMap_fold ds [] (fun kv hkv => absurd hkv (List.not_mem_nil kv))
  have husage_mem : ∀ x ∈ m.map (fun kv => groupMean kv.2), x = F64.num 0 := by
    intro x hx
    rcases List.mem_map.mp hx with ⟨kv, hkv, hxe⟩
    have hg := hgood kv hkv
    rw [← hxe]
    exact groupMean_placeholder kv.2 hg.1 hg.2
  have hlen : (m.map fun kv => groupMean kv.2).length = (ds.map luidKey).toFinset.card := by
    rw [List.length_map]
    have h1 : m.map Prod.fst = ds.foldl (fun ks d => insKey ks (luidKey d)) [] := by
      simpa using foldl_push_map_fst ds []
    have h2 : (m.map Prod.fst).Nodup := by
      rw [h1]
      exact foldl_insKey_nodup ds [] List.nodup_nil
    have h3 : (m.map Prod.fst).toFinset = (ds.map luidKey).toFinset := by
      rw [h1, foldl_insKey_toFinset ds []]
      simp
    have h4 : m.length = (m.map Prod.fst).length := by
      simp
    rw [h4, ← List.toFinset_card_of_nodup h2, h3]
  have hrep : m.map (fun kv => groupMean kv.2)
      = List.replicate ((ds.map luidKey).toFinset.card) (F64.num 0) :=
    List.eq_replicate_iff.mpr ⟨hlen, husage_mem⟩
  unfold get_gpu_usage
  rw [hf, hloop]
  simp only [hrep, sortUsages_replicate]

/-- A description with identity key A, used in concrete runs. -/
def descA : DXGI_ADAPTER_DESC := ⟨⟨1, 0⟩⟩

/-- A description with identity key B, distinct from A. -/
def descB : DXGI_ADAPTER_DESC := ⟨⟨2, 0⟩⟩

/-- An OS state in which the DXGI factory cannot be created. -/
def envNoFactory : Env := ⟨.error (), fun _ => .error ()⟩

/-- An OS state with a factory but zero adapter entries. -/
def envEmpty : Env := ⟨.ok (), fun _ => .error ()⟩

/-- An OS state with exactly one adapter entry, at index 0; the enumeration
call at index 1 fails. -/
def envOne : Env :=
  ⟨.ok (), fun i => if i = 0 then .ok ⟨.ok descA⟩ else .error ()⟩

/-- The same OS state as `envOne` except that index 15 would also yield an
entry; the program never asks for it. -/
def envOne15 : Env :=
  ⟨.ok (), fun i =>
    if i = 0 then .ok ⟨.ok descA⟩
    else if i = 15 then .ok ⟨.ok descB⟩
    else .error ()⟩

/-- An OS state whose first entry has a failing `GetDesc`, while index 1 holds
a perfectly healthy entry that a skip-and-continue scan would reach. -/
def envDescFail : Env :=
  ⟨.ok (), fun i =>
    if i = 0 then .ok ⟨.error ()⟩
    else if i = 1 then .ok ⟨.ok descA⟩
    else .error ()⟩

/-- An OS state yielding three logical entries with identities A, A, B. -/
def env8 : Env :=
  ⟨.ok (), fun i =>
    if i = 0 then .ok ⟨.ok descA⟩
    else if i = 1 then .ok ⟨.ok descA⟩
    else if i = 2 then .ok ⟨.ok descB⟩
    else .error ()⟩

/-- Inversion of a successful run: the factory was created, the loop finished
with some map, and sorting its means succeeded and produced the output. -/
theorem get_gpu_usage_ok_inv (env : Env) (out : List F64)
    (hok : get_gpu_usage env = .ok out) :
    env.CreateDXGIFactory = .ok () ∧
      ∃ m, gpuLoop env 0 10 [] = .ok m ∧
        sortUsages (m.map fun kv => groupMean kv.2) = some out := by
  unfold get_gpu_usage at hok
  split at hok
  · simp at hok
  · rename_i u hfc
    cases u
    refine ⟨hfc, ?_⟩
    split at hok
    · simp at hok
    · rename_i gpu_map hlp
      refine ⟨gpu_map, hlp, ?_⟩
      split at hok
      · rename_i s hs
        simp only [Outcome.ok.injEq] at hok
        rw [hs, hok]
      · simp at hok

/-- Concrete run with one adapter entry: the output is one mean, 0. -/
theorem envOne_result : get_gpu_usage envOne = .ok [F64.num 0] := by
  have h := get_gpu_usage_ok_char envOne [descA] rfl (by decide)
  have hc : (([descA].map luidKey).toFinset.card) = 1 := by decide
  rw [h, hc]
  rfl

/-- Concrete run with three entries of identities A, A, B: two means, both
0. -/
theorem env8_result : get_gpu_usage env8 = .ok [F64.num 0, F64.num 0] := by
  have h := get_gpu_usage_ok_char env8 [descA, descA, descB] rfl (by decide)
  have hc : (([descA, descA, descB].map luidKey).toFinset.card) = 2 := by decide
  rw [h, hc]
  rfl

/-- C1: if the DXGI factory cannot be created, `get_gpu_usage` returns the
`EnumerationUnavailable` error, and no usage list whatsoever is returned. -/
theorem gpu_C1 (env : Env) (h : env.CreateDXGIFactory = .error ()) :
    get_gpu_usage env = .err .enumerationUnavailable ∧
      ∀ out : List F64, get_gpu_usage env ≠ .ok out := by
  have he : get_gpu_usage env = .err .enumerationUnavailable := by
    unfold get_gpu_usage
    rw [h]
  refine ⟨he, ?_⟩
  intro out hout
  rw [he] at hout
  exact Outcome.noConfusion hout

theorem gpu_C1_witness :
    get_gpu_usage envNoFactory = .err .enumerationUnavailable :=
  (gpu_C1 envNoFactory rfl).1

/-- C2: on a successful run that visited the description list `ds` (the N
logical entries), the output has exactly as many elements as there are
distinct grouping keys among `ds` (the K distinct identities), and K is at
most N. -/
theorem gpu_C2 (env : Env) (ds : List DXGI_ADAPTER_DESC) (out : List F64)
    (hds : visitedFrom env 0 10 = some ds)
    (hok : get_gpu_usage env = .ok out) :
    out.length = ((ds.map luidKey).toFinset.card) ∧
      ((ds.map luidKey).toFinset.card) ≤ ds.length := by
  have hf := (get_gpu_usage_ok_inv env out hok).1
  rw [get_gpu_usage_ok_char env ds hf hds] at hok
  injection hok with h2
  constructor
  · rw [← h2, List.length_replicate]
  · calc ((ds.map luidKey).toFinset.card) ≤ (ds.map luidKey).length :=
          List.toFinset_card_le _
      _ = ds.length := List.length_map _ _

theorem gpu_C2_witness :
    ([F64.num 0, F64.num 0] : List F64).length
        = (([descA, descA, descB].map luidKey).toFinset.card) ∧
      (([descA, descA, descB].map luidKey).toFinset.card)
        ≤ ([descA, descA, descB] : List DXGI_ADAPTER_DESC).length :=
  gpu_C2 env8 [descA, descA, descB] [F64.num 0, F64.num 0] (by decide) env8_result

/-- C3: the output of every successful run is sorted ascending; every
adjacent pair a, b of the output satisfies a ≤ b in the comparator order. -/
theorem gpu_C3 (env : Env) (out : List F64)
    (hok : get_gpu_usage env = .ok out) : out.Chain' f64le := by
  obtain ⟨-, m, -, hs⟩ := get_gpu_usage_ok_inv env out hok
  exact sortUsages_chain _ out hs

theorem gpu_C3_witness : List.Chain' f64le [F64.num 0, F64.num 0] :=
  gpu_C3 env8 [F64.num 0, F64.num 0] env8_result

/-- C4 counterexample: in `envOne` the enumeration call at index 1 is made by
the loop (index 0 succeeded, so the `while let` proceeds to index 1) and that
OS call fails, yet `get_gpu_usage` does not return an error: it returns `Ok`
with the usage value of the entry processed before the failure.  This refutes
the claim that any OS-call failure during per-index adapter enumeration
short-circuits the operation with an error and no output. -/
theorem gpu_C4_counterexample :
    envOne.EnumAdapters 0 = .ok ⟨.ok descA⟩ ∧
      envOne.EnumAdapters 1 = .error () ∧
      get_gpu_usage envOne = .ok [F64.num 0] :=
  ⟨rfl, rfl, envOne_result⟩

/-- C4 amended: the run returns an error exactly when the factory cannot be
created (then `EnumerationUnavailable`) or some visited entry's description
fetch fails (then `DescriptionUnavailable`); in either case the `Err`
carries no usage values, so there is no partial-result reporting.  A failing
`EnumAdapters` call is not an error: the `while let` at line 16 treats it as
the end-of-enumeration signal and the call succeeds with the aggregate of the
entries already visited. -/
theorem gpu_C4_amended (env : Env) (e : GpuError) :
    get_gpu_usage env = .err e ↔
      (env.CreateDXGIFactory = .error () ∧ e = .enumerationUnavailable) ∨
      (env.CreateDXGIFactory = .ok () ∧ visitedFrom env 0 10 = none ∧
        e = .descriptionUnavailable) := by
  constructor
  · intro h
    unfold get_gpu_usage at h
    split at h
    · rename_i u hfc
      cases u
      injection h with h2
      exact Or.inl ⟨hfc, h2.symm⟩
    · rename_i u hfc
      cases u
      split at h
      · rename_i e2 hlp
        rw [gpuLoop_eq env 10 0 []] at hlp
        cases hv : visitedFrom env 0 10 with
        | none =>
          rw [hv] at hlp
          injection h with h2
          injection hlp with h3
          refine Or.inr ⟨hfc, rfl, ?_⟩
          rw [← h2, ← h3]
        | some ds =>
          rw [hv] at hlp
          simp at hlp
      · rename_i gpu_map hlp
        split at h
        · simp at h
        · simp at h
  · intro h
    rcases h with ⟨hfc, he⟩ | ⟨hfc, hv, he⟩
    · subst he
      unfold get_gpu_usage
      rw [hfc]
    · subst he
      unfold get_gpu_usage
      rw [hfc, gpuLoop_eq env 10 0 [], hv]

/-- C5: when the loop reaches an entry whose description fetch fails (that is
what `visitedFrom env 0 10 = none` says), the whole call fails with
`DescriptionUnavailable`; the entry is not skipped and the remaining entries
are not enumerated. -/
theorem gpu_C5 (env : Env) (hf : env.CreateDXGIFactory = .ok ())
    (hfail : visitedFrom env 0 10 = none) :
    get_gpu_usage env = .err .descriptionUnavailable := by
  unfold get_gpu_usage
  rw [hf, gpuLoop_eq env 10 0 [], hfail]

theorem gpu_C5_witness :
    get_gpu_usage envDescFail = .err .descriptionUnavailable :=
  gpu_C5 envDescFail rfl (by decide)

/-- Ending the enumeration at the very first index yields an empty visit
list, whatever the remaining fuel. -/
theorem visitedFrom_end (env : Env) (i fuel : Nat)
    (h : env.EnumAdapters i = .error ()) :
    visitedFrom env i (fuel + 1) = some [] := by
  simp [visitedFrom, h]

/-- C6: a factory with zero adapter entries (end-of-enumeration at index 0)
gives a successful run with an empty output, not an error. -/
theorem gpu_C6 (env : Env) (hf : env.CreateDXGIFactory = .ok ())
    (h0 : env.EnumAdapters 0 = .error ()) :
    get_gpu_usage env = .ok [] := by
  have hds : visitedFrom env 0 10 = some [] := visitedFrom_end env 0 9 h0
  rw [get_gpu_usage_ok_char env [] hf hds]
  simp

theorem gpu_C6_witness : get_gpu_usage envEmpty = .ok [] :=
  gpu_C6 envEmpty rfl rfl

/-- The loop only consults `EnumAdapters` at the indices it visits: two OS
states that agree on the fuel-wide index window give identical loops. -/
theorem gpuLoop_congr (env env2 : Env) :
    ∀ fuel i m,
      (∀ j, i ≤ j → j < i + fuel → env.EnumAdapters j = env2.EnumAdapters j) →
      gpuLoop env i fuel m = gpuLoop env2 i fuel m := by
  intro fuel
  induction fuel with
  | zero => intro i m _; rfl
  | succ fuel ih =>
    intro i m h
    have h0 : env.EnumAdapters i = env2.EnumAdapters i :=
      h i le_rfl (by omega)
    cases henum : env.EnumAdapters i with
    | error e =>
      have henum2 : env2.EnumAdapters i = .error e := by rw [← h0, henum]
      simp [gpuLoop, henum, henum2]
    | ok adapter =>
      have henum2 : env2.EnumAdapters i = .ok adapter := by rw [← h0, henum]
      cases hdesc : adapter.GetDesc with
      | error e =>
        simp [gpuLoop, henum, henum2, hdesc]
      | ok desc =>
        simp only [gpuLoop, henum, henum2, hdesc]
        exact ih (i + 1) _ (fun j h1 h2 => h j (by omega) (by omega))

/-- C7: the enumeration call is made only for indices 0 through 9 — the
result of `get_gpu_usage` cannot depend on what `EnumAdapters` would return
at any index of 10 or more, so the loop terminates after at most 10 visited
entries no matter how many adapters the OS reports. -/
theorem gpu_C7 (env env2 : Env)
    (hf : env.CreateDXGIFactory = env2.CreateDXGIFactory)
    (h : ∀ i, i < 10 → env.EnumAdapters i = env2.EnumAdapters i) :
    get_gpu_usage env = get_gpu_usage env2 := by
  unfold get_gpu_usage
  rw [hf, gpuLoop_congr env env2 10 0 [] (fun j h1 h2 => h j (by omega))]

theorem gpu_C7_witness : get_gpu_usage envOne = get_gpu_usage envOne15 :=
  gpu_C7 envOne envOne15 rfl (by decide)

/-- C8: three logical entries with identities A, A, B and placeholder samples
0.0 produce exactly the two-element output [0.0, 0.0]: one mean per distinct
identity, both means 0. -/
theorem gpu_C8 : get_gpu_usage env8 = .ok [F64.num 0, F64.num 0] :=
  env8_result

/-- C9: the sort comparator rejects NaN by failing: a list of two or more
means containing a NaN makes the sort panic instead of producing an
arbitrarily ordered output; and on every OS state this failing branch is
unreachable — `get_gpu_usage` never panics, because every mean it sorts is an
ordinary number. -/
theorem gpu_C9 :
    (∀ l : List F64, 2 ≤ l.length → F64.nan ∈ l → sortUsages l = none) ∧
      ∀ env : Env, get_gpu_usage env ≠ .panic := by
  constructor
  · intro l h2 hnan
    unfold sortUsages
    have h1 : ¬ l.length ≤ 1 := by omega
    rw [if_neg h1]
    have hall : ¬ (l.all F64.isNum = true) := by
      rw [List.all_eq_true]
      push_neg
      exact ⟨F64.nan, hnan, by simp [F64.isNum]⟩
    rw [if_neg hall]
  · intro env hp
    cases hfc : env.CreateDXGIFactory with
    | error u =>
      cases u
      have he : get_gpu_usage env = .err .enumerationUnavailable := by
        unfold get_gpu_usage
        rw [hfc]
      rw [he] at hp
      exact Outcome.noConfusion hp
    | ok u =>
      cases u
      cases hv : visitedFrom env 0 10 with
      | none =>
        have he : get_gpu_usage env = .err .descriptionUnavailable := by
          unfold get_gpu_usage
          rw [hfc, gpuLoop_eq env 10 0 [], hv]
        rw [he] at hp
        exact Outcome.noConfusion hp
      | some ds =>
        rw [get_gpu_usage_ok_char env ds hfc hv] at hp
        exact Outcome.noConfusion hp

theorem gpu_C9_witness :
    sortUsages [F64.nan, F64.num 0] = none ∧ get_gpu_usage envOne ≠ .panic :=
  ⟨gpu_C9.1 [F64.nan, F64.num 0] (by decide) (by decide), gpu_C9.2 envOne⟩

/-- C10: every group in the map produced by a completed loop is nonempty (a
key is only ever inserted together with its first sample), and consequently
every element of a successful output is the mean of a nonempty sample list
and is not NaN: no division by zero ever happens. -/
theorem gpu_C10 (env : Env) :
    (∀ m, gpuLoop env 0 10 [] = .ok m → ∀ kv ∈ m, kv.2 ≠ []) ∧
      ∀ out, get_gpu_usage env = .ok out → ∀ x ∈ out,
        (∃ vals : List F64, vals ≠ [] ∧ x = groupMean vals) ∧ x ≠ F64.nan := by
  constructor
  · intro m hm kv hkv
    rw [gpuLoop_eq env 10 0 []] at hm
    cases hv : visitedFrom env 0 10 with
    | none =>
      rw [hv] at hm
      simp at hm
    | some ds =>
      rw [hv] at hm
      injection hm with h3
      have hgood := goodMap_fold ds [] (fun kv2 hkv2 => absurd hkv2 (List.not_mem_nil kv2))
      exact (hgood kv (h3 ▸ hkv)).1
  · intro out hok x hx
    obtain ⟨hf, m, hlp, hs⟩ := get_gpu_usage_ok_inv env out hok
    have hgood : GoodMap m := by
      rw [gpuLoop_eq env 10 0 []] at hlp
      cases hv : visitedFrom env 0 10 with
      | none =>
        rw [hv] at hlp
        simp at hlp
      | some ds =>
        rw [hv] at hlp
        injection hlp with h3
        rw [← h3]
        exact goodMap_fold ds [] (fun kv2 hkv2 => absurd hkv2 (List.not_mem_nil kv2))
    have hx2 : x ∈ m.map (fun kv => groupMean kv.2) := sortUsages_mem _ out hs x hx
    rcases List.mem_map.mp hx2 with ⟨kv, hkv, hxe⟩
    have hg := hgood kv hkv
    have hzero : x = F64.num 0 := by
      rw [← hxe]
      exact groupMean_placeholder kv.2 hg.1 hg.2
    refine ⟨⟨kv.2, hg.1, hxe.symm⟩, ?_⟩
    rw [hzero]
    exact F64.noConfusion

theorem gpu_C10_witness :
    ((luidKey descA, [placeholder_usage]) : String × List F64).2 ≠ [] ∧
      ((∃ vals : List F64, vals ≠ [] ∧ F64.num 0 = groupMean vals) ∧
        F64.num 0 ≠ F64.nan) :=
  ⟨(gpu_C10 envOne).1 [(luidKey descA, [placeholder_usage])] (by decide)
      (luidKey descA, [placeholder_usage]) (by simp),
    (gpu_C10 envOne).2 [F64.num 0] envOne_result (F64.num 0) (by simp)⟩
